import Mathlib

/-!
Verification of the Teams SSO bot's core logic (message handler, agent client,
response normalizer, conversation-reference store, proactive notifier) against
its natural-language specification.

The TypeScript sources are shallowly embedded: JSON values are an inductive
type, JavaScript property access (which throws a `TypeError` on `null` or
`undefined` receivers) is modelled in an `Except Unit` monad, `undefined` is
`Option.none`, and JS truthiness is made explicit.  Numbers are restricted to
integers (the claims never involve fractional payloads; IEEE floats are out of
the model's scope).
-/

namespace BotSpec

/-- A JSON value as produced by `JSON.parse` (integer numbers only). -/
inductive Json where
  | null
  | bool (b : Bool)
  | num (n : Int)
  | str (s : String)
  | arr (elems : List Json)
  | obj (members : List (String × Json))

instance : Inhabited Json := ⟨.null⟩

/-- JavaScript truthiness of a JSON value: `null`, `false`, `0` and `""` are
falsy; every array and object is truthy. -/
def Json.truthy : Json → Bool
  | .null => false
  | .bool b => b
  | .num n => decide (n ≠ 0)
  | .str s => decide (s ≠ "")
  | .arr _ => true
  | .obj _ => true

/-- A JavaScript value in flight: `none` models `undefined`. -/
abbrev JsVal := Option Json

/-- Truthiness of a possibly-`undefined` value. -/
def jsTruthy : JsVal → Bool
  | none => false
  | some j => j.truthy

/-- Object member lookup. `none` models an absent member (`undefined`). A JS
object holds each key once (the parser below collapses duplicates), so the
last-occurrence preference here is only a tie-break for off-model lists. -/
def objLookup (ms : List (String × Json)) (k : String) : Option Json :=
  match ms with
  | [] => none
  | (k', v) :: rest =>
      match objLookup rest k with
      | some w => some w
      | none => if k' = k then some v else none

/-- Property read on a JSON value that is known not to be `null`/`undefined`:
objects yield the member, primitives and arrays yield `undefined` (the code
never reads `length`-like built-ins through this path). -/
def Json.getProp (j : Json) (k : String) : Option Json :=
  match j with
  | .obj ms => objLookup ms k
  | _ => none

/-- JavaScript property access `v[k]`: throws a `TypeError` when the receiver
is `undefined` or `null`, otherwise reads the property. -/
def jsAccess (v : JsVal) (k : String) : Except Unit JsVal :=
  match v with
  | none => .error ()
  | some .null => .error ()
  | some j => .ok (j.getProp k)

/-- Optional chaining `v?.k`: `undefined` when the receiver is `undefined` or
`null`, otherwise a plain property read. -/
def optChain (v : JsVal) (k : String) : JsVal :=
  match v with
  | none => none
  | some .null => none
  | some j => j.getProp k

/-- JavaScript index access `v[0]`: throws on `null`/`undefined`; arrays yield
their head, strings their first character, objects their `"0"` member, other
primitives `undefined`. -/
def jsIndex0 (v : JsVal) : Except Unit JsVal :=
  match v with
  | none => .error ()
  | some .null => .error ()
  | some (.arr xs) => .ok xs.head?
  | some (.str s) =>
      .ok (match s.data with
        | [] => none
        | c :: _ => some (.str (String.mk [c])))
  | some (.obj ms) => .ok (objLookup ms "0")
  | some _ => .ok none

/-- JavaScript `x || y`: `x` when truthy, else `y`. -/
def jsOr (a b : JsVal) : JsVal :=
  if jsTruthy a then a else b

mutual

/-- JavaScript `String(v)` / template-literal conversion of a JSON value:
arrays render as their comma-joined elements (with `null` rendered empty, as
`Array.prototype.join` does), objects as `"[object Object]"`. -/
def Json.jsStr : Json → String
  | .null => "null"
  | .bool b => cond b "true" "false"
  | .num n => toString n
  | .str s => s
  | .arr xs => jsStrJoin xs
  | .obj _ => "[object Object]"

/-- `Array.prototype.join(",")` over JSON elements. -/
def jsStrJoin : List Json → String
  | [] => ""
  | [.null] => ""
  | [x] => x.jsStr
  | .null :: xs => "," ++ jsStrJoin xs
  | x :: xs => x.jsStr ++ "," ++ jsStrJoin xs

end

/-- Template-literal conversion of a possibly-`undefined` value. -/
def jsStrV : JsVal → String
  | none => "undefined"
  | some j => j.jsStr

/-- One hexadecimal digit (lower case), for JSON string escapes. -/
def hexDigitChar (n : Nat) : String :=
  String.mk [if n < 10 then Char.ofNat ('0'.toNat + n) else Char.ofNat ('a'.toNat + n - 10)]

/-- `JSON.stringify` escaping of a single character inside a string literal. -/
def escapeJsonChar (c : Char) : String :=
  if c = '"' then "\\\""
  else if c = '\\' then "\\\\"
  else if c = '\n' then "\\n"
  else if c = '\r' then "\\r"
  else if c = '\t' then "\\t"
  else if c.toNat = 8 then "\\b"
  else if c.toNat = 12 then "\\f"
  else if c.toNat < 32 then "\\u00" ++ hexDigitChar (c.toNat / 16) ++ hexDigitChar (c.toNat % 16)
  else String.mk [c]

/-- `JSON.stringify` escaping of a whole string (without the quotes). -/
def escapeJson (s : String) : String :=
  String.join (s.data.map escapeJsonChar)

mutual

/-- Compact `JSON.stringify(v)` (no replacer, no indent). -/
def Json.stringifyC : Json → String
  | .null => "null"
  | .bool b => cond b "true" "false"
  | .num n => toString n
  | .str s => "\"" ++ escapeJson s ++ "\""
  | .arr xs => "[" ++ stringifyCList xs ++ "]"
  | .obj ms => "\x7b" ++ stringifyCObj ms ++ "\x7d"

/-- Comma-joined compact rendering of array elements. -/
def stringifyCList : List Json → String
  | [] => ""
  | [x] => x.stringifyC
  | x :: xs => x.stringifyC ++ "," ++ stringifyCList xs

/-- Comma-joined compact rendering of object members. -/
def stringifyCObj : List (String × Json) → String
  | [] => ""
  | [(k, v)] => "\"" ++ escapeJson k ++ "\":" ++ v.stringifyC
  | (k, v) :: ms => "\"" ++ escapeJson k ++ "\":" ++ v.stringifyC ++ "," ++ stringifyCObj ms

end

/-- Insert two spaces after every line break. -/
def shiftIndentChars : List Char → List Char
  | [] => []
  | '\n' :: rest => '\n' :: ' ' :: ' ' :: shiftIndentChars rest
  | c :: rest => c :: shiftIndentChars rest

/-- Push a nested pretty-printed value one indent level deeper, as JS's
cumulative indenting does: every line break gains two spaces. -/
def shiftIndent (s : String) : String :=
  String.mk (shiftIndentChars s.data)

mutual

/-- Pretty `JSON.stringify(v, null, 2)`: children are indented two spaces per
nesting level, object members render as `"key": value`. -/
def Json.stringifyP : Json → String
  | .null => "null"
  | .bool b => cond b "true" "false"
  | .num n => toString n
  | .str s => "\"" ++ escapeJson s ++ "\""
  | .arr [] => "[]"
  | .arr xs => "[\n" ++ stringifyPList xs ++ "\n]"
  | .obj [] => "\x7b\x7d"
  | .obj ms => "\x7b\n" ++ stringifyPObj ms ++ "\n\x7d"

/-- Pretty rendering of array elements, one per line. -/
def stringifyPList : List Json → String
  | [] => ""
  | [x] => "  " ++ shiftIndent x.stringifyP
  | x :: xs => "  " ++ shiftIndent x.stringifyP ++ ",\n" ++ stringifyPList xs

/-- Pretty rendering of object members, one per line. -/
def stringifyPObj : List (String × Json) → String
  | [] => ""
  | [(k, v)] => "  \"" ++ escapeJson k ++ "\": " ++ shiftIndent v.stringifyP
  | (k, v) :: ms =>
      "  \"" ++ escapeJson k ++ "\": " ++ shiftIndent v.stringifyP ++ ",\n" ++ stringifyPObj ms

end

/-! ### A model of `JSON.parse`

Recursive-descent, fuelled for totality.  Faithful to strict JSON for the
payload shapes the claims use (null/booleans/strings/arrays/objects and
integer numbers); JSON texts outside this fragment fail to parse. -/

/-- JSON insignificant whitespace. -/
def isJsonWs (c : Char) : Bool :=
  c = ' ' || c = '\t' || c = '\n' || c = '\r'

/-- Drop leading JSON whitespace. -/
def dropWs : List Char → List Char
  | [] => []
  | c :: cs => if isJsonWs c then dropWs cs else c :: cs

/-- Value of a hex digit, if any. -/
def hexVal? (c : Char) : Option Nat :=
  if '0' ≤ c ∧ c ≤ '9' then some (c.toNat - '0'.toNat)
  else if 'a' ≤ c ∧ c ≤ 'f' then some (c.toNat - 'a'.toNat + 10)
  else if 'A' ≤ c ∧ c ≤ 'F' then some (c.toNat - 'A'.toNat + 10)
  else none

/-- Parse the body of a JSON string literal after the opening quote.
Control characters must be escaped; the usual escapes and `\uXXXX` are
supported. -/
def parseQuoted (acc : List Char) : List Char → Option (String × List Char)
  | [] => none
  | '"' :: rest => some (String.mk acc.reverse, rest)
  | '\\' :: 'u' :: a :: b :: c :: d :: rest =>
      match hexVal? a, hexVal? b, hexVal? c, hexVal? d with
      | some va, some vb, some vc, some vd =>
          parseQuoted (Char.ofNat (((va * 16 + vb) * 16 + vc) * 16 + vd) :: acc) rest
      | _, _, _, _ => none
  | '\\' :: e :: rest =>
      match e with
      | '"' => parseQuoted ('"' :: acc) rest
      | '\\' => parseQuoted ('\\' :: acc) rest
      | '/' => parseQuoted ('/' :: acc) rest
      | 'n' => parseQuoted ('\n' :: acc) rest
      | 'r' => parseQuoted ('\r' :: acc) rest
      | 't' => parseQuoted ('\t' :: acc) rest
      | 'b' => parseQuoted (Char.ofNat 8 :: acc) rest
      | 'f' => parseQuoted (Char.ofNat 12 :: acc) rest
      | _ => none
  | c :: rest =>
      if c.toNat < 32 then none else parseQuoted (c :: acc) rest

/-- Leading decimal digits of the input. -/
def takeDigits : List Char → List Char × List Char
  | [] => ([], [])
  | c :: cs =>
      if '0' ≤ c ∧ c ≤ '9' then
        let (ds, r) := takeDigits cs
        (c :: ds, r)
      else ([], c :: cs)

/-- Digits to a natural number. -/
def digitsToNat (ds : List Char) : Nat :=
  ds.foldl (fun acc c => acc * 10 + (c.toNat - '0'.toNat)) 0

/-- Parse a JSON integer literal (optional minus, no leading zeros). -/
def parseIntLit : List Char → Option (Int × List Char)
  | cs =>
      let (neg, cs1) := match cs with
        | '-' :: r => (true, r)
        | _ => (false, cs)
      match takeDigits cs1 with
      | ([], _) => none
      | (ds, rest) =>
          if ds.length > 1 ∧ ds.headI = '0' then none
          else
            let n : Int := (digitsToNat ds : Nat)
            some (if neg then -n else n, rest)

/-- Property assignment while `JSON.parse` builds an object: a duplicate key
keeps its first position and takes the later value (JS assignment semantics),
so a parsed object holds each key once. -/
def objInsert : List (String × Json) → String → Json → List (String × Json)
  | [], k, v => [(k, v)]
  | (k', w) :: rest, k, v =>
      if k' = k then (k, v) :: rest else (k', w) :: objInsert rest k v

mutual

/-- Parse one JSON value (after skipping leading whitespace). -/
def parseVal : Nat → List Char → Option (Json × List Char)
  | 0, _ => none
  | fuel + 1, cs =>
      match dropWs cs with
      | 'n' :: 'u' :: 'l' :: 'l' :: r => some (.null, r)
      | 't' :: 'r' :: 'u' :: 'e' :: r => some (.bool true, r)
      | 'f' :: 'a' :: 'l' :: 's' :: 'e' :: r => some (.bool false, r)
      | '"' :: r =>
          match parseQuoted [] r with
          | some (s, r') => some (.str s, r')
          | none => none
      | '[' :: r =>
          match dropWs r with
          | ']' :: r' => some (.arr [], r')
          | r' => parseElems fuel r' []
      | '\x7b' :: r =>
          match dropWs r with
          | '\x7d' :: r' => some (.obj [], r')
          | r' => parseMembers fuel r' []
      | cs' =>
          match parseIntLit cs' with
          | some (n, r) => some (.num n, r)
          | none => none

/-- Parse the remaining elements of a nonempty array. -/
def parseElems : Nat → List Char → List Json → Option (Json × List Char)
  | 0, _, _ => none
  | fuel + 1, cs, acc =>
      match parseVal fuel cs with
      | none => none
      | some (v, rest) =>
          match dropWs rest with
          | ',' :: r => parseElems fuel r (acc ++ [v])
          | ']' :: r => some (.arr (acc ++ [v]), r)
          | _ => none

/-- Parse the remaining members of a nonempty object. -/
def parseMembers : Nat → List Char → List (String × Json) → Option (Json × List Char)
  | 0, _, _ => none
  | fuel + 1, cs, acc =>
      match dropWs cs with
      | '"' :: r =>
          match parseQuoted [] r with
          | none => none
          | some (k, rest) =>
              match dropWs rest with
              | ':' :: r2 =>
                  match parseVal fuel r2 with
                  | none => none
                  | some (v, rest2) =>
                      match dropWs rest2 with
                      | ',' :: r3 => parseMembers fuel r3 (objInsert acc k v)
                      | '\x7d' :: r3 => some (.obj (objInsert acc k v), r3)
                      | _ => none
              | _ => none
      | _ => none

end

/-- Model of JavaScript `JSON.parse`: `none` when the argument is not valid
JSON (in which case `JSON.parse` throws a `SyntaxError`). -/
def jsonParse (s : String) : Option Json :=
  match parseVal (2 * s.length + 4) s.data with
  | some (j, rest) => if dropWs rest = [] then some j else none
  | none => none

/-- `JSON.stringify` of a possibly-`undefined` value (only reached on defined
values in the embedded code). -/
def jsStringifyV : JsVal → String
  | some a => a.stringifyC
  | none => "undefined"

/-- Strict equality `v === "s"` of a JS value against a string literal. -/
def jsEqStr (v : JsVal) (s : String) : Bool :=
  match v with
  | some (.str t) => t = s
  | _ => false

/-! ## Embedding of `teamsBot.ts` / the message-handler variant with telemetry

Telemetry calls are pure fire-and-forget event emission and do not influence
any value or sent message; they are omitted from the embedding. -/

/-- One item of the normalizer's structured history
(`interface MessageHistoryItem`). -/
structure MessageHistoryItem where
  role : String
  content : Json

/-- Outcome of one `fetch` round-trip, covering the cases the code
distinguishes: a 2xx response whose body parsed (`ok`), a 2xx response whose
`response.json()` rejected (`badBody`, carrying the engine's error message),
a non-2xx status (`httpError`), and a rejected `fetch` (`networkError`). -/
inductive FetchOutcome where
  | ok (data : Json)
  | badBody (errMsg : String)
  | httpError (status : Nat)
  | networkError (errMsg : String)

/-- Whether the outcome takes `getAIResponse` into its catch block. -/
def FetchOutcome.isFailure : FetchOutcome → Bool
  | .ok _ => false
  | _ => true

/-- The fallback prefix of `getAIResponse`'s catch branch. -/
def apologyPrefix : String :=
  "Sorry, I encountered an error while processing your request: "

/-- The message of the error thrown on a non-2xx agent response. -/
def httpErrorMessage (status : Nat) (url : String) : String :=
  "HTTP error! status: " ++ toString status ++ " calling URL: " ++ url

/-- `error.message` as seen by `getAIResponse`'s catch block. -/
def failureDetail (url : String) : FetchOutcome → String
  | .ok _ => ""
  | .badBody m => m
  | .httpError st => httpErrorMessage st url
  | .networkError m => m

/-- `getAIResponse(chat_id, session_id, message)`: POSTs to the agent and
extracts the reply. A non-2xx status throws inside the try block; the catch
turns every failure into the apology string. -/
def getAIResponse (url chat_id session_id message : String) (o : FetchOutcome) : JsVal :=
  match o with
  | .ok data =>
      -- `if (data && data.response) ... else if (data && data.message) ...`
      if jsTruthy (some data) && jsTruthy (data.getProp "response") then data.getProp "response"
      else if jsTruthy (some data) && jsTruthy (data.getProp "message") then data.getProp "message"
      else
        match data with
        | .str _ => some data              -- `typeof data === 'string'`
        | _ => some (.str data.stringifyC) -- `JSON.stringify(data)`
  | o => some (.str (apologyPrefix ++ failureDetail url o))

/-- `processToolCallResponse(response)`: renders a `tool_calls` or
`function_call` member as a human-readable string. `tool_calls[0].function`
can throw when `tool_calls` is truthy but `tool_calls[0]` is absent. -/
def processToolCallResponse (response : Json) : Except Unit JsVal := do
  let toolCalls := response.getProp "tool_calls"
  if jsTruthy toolCalls then
    let toolCall ← jsIndex0 toolCalls
    let fn ← jsAccess toolCall "function"
    let nm := jsOr (optChain fn "name") (some (.str "Unknown"))
    let args := jsOr (optChain fn "arguments") (some (.obj []))
    return some (.str ("Executed tool: " ++ jsStrV nm ++ " with result: " ++ jsStringifyV args))
  else
    let functionCall := response.getProp "function_call"
    if jsTruthy functionCall then
      -- `response.function_call.name` / `.arguments` (the receiver is truthy)
      let nm := optChain functionCall "name"
      let args := optChain functionCall "arguments"
      return some (.str ("Function call: " ++ jsStrV nm ++ " with arguments: " ++ jsStrV args))
    else
      return some (.str "Tool call response received")

/-- The `users.forEach` body of `formatUserList`, with the running index.
Accessing `display_name` on a `null` entry throws. -/
def formatUserEntries : Nat → List Json → Except Unit String
  | _, [] => .ok ""
  | idx, user :: rest => do
      let dn ← jsAccess (some user) "display_name"
      let jt ← jsAccess (some user) "job_title"
      let dep ← jsAccess (some user) "department"
      let ml ← jsAccess (some user) "mail"
      let line :=
        toString (idx + 1) ++ ". **" ++ jsStrV (jsOr dn (some (.str "No name"))) ++ "**\n" ++
        (if jsTruthy jt then "   • Job Title: " ++ jsStrV jt ++ "\n" else "") ++
        (if jsTruthy dep then "   • Department: " ++ jsStrV dep ++ "\n" else "") ++
        (if jsTruthy ml then "   • Email: " ++ jsStrV ml ++ "\n" else "") ++ "\n"
      let restS ← formatUserEntries (idx + 1) rest
      return line ++ restS

/-- `formatUserList(users)`: numbered list of Graph user records. -/
def formatUserList (users : List Json) : Except Unit String := do
  if users.length = 0 then
    return "No users found."
  let entries ← formatUserEntries 0 users
  return "Found " ++ toString users.length ++ " user(s):\n\n" ++ entries

/-- `processToolResults(toolResults)`: single tool result → try to parse its
content (its own try/catch also swallows `formatUserList` errors); several →
a count summary. -/
def processToolResults (toolResults : List Json) : Except Unit JsVal := do
  if toolResults.length = 1 then
    let result := toolResults.headI
    let content ← jsAccess (some result) "content"
    -- `JSON.parse(result.content)` coerces its argument to a string first
    let inner : Except Unit String :=
      match jsonParse (jsStrV content) with
      | none => .error ()
      | some (.arr elems) =>
          if jsTruthy (optChain elems.head? "display_name") then formatUserList elems
          else .ok ("Tool result: " ++ jsStrV content)
      | some _ => .ok ("Tool result: " ++ jsStrV content)
    match inner with
    | .ok s => return some (.str s)
    | .error _ => return some (.str ("Tool result: " ++ jsStrV content))
  else
    return some (.str ("Received " ++ toString toolResults.length ++ " tool results"))

/-- `messages.filter(msg => msg.role === 'tool')`: the callback's property
access throws on a `null` entry. -/
def filterToolRole : List Json → Except Unit (List Json)
  | [] => .ok []
  | msg :: rest => do
      let role ← jsAccess (some msg) "role"
      let tail ← filterToolRole rest
      return (if jsEqStr role "tool" then msg :: tail else tail)

/-- `processConversationArray(messages)`: last assistant message's content,
else tool results, else a count summary. -/
def processConversationArray (messages : List Json) : Except Unit JsVal := do
  let lastMessage : JsVal := messages.getLast?
  -- `if (lastMessage && lastMessage.role === 'assistant')`
  if jsTruthy lastMessage && jsEqStr (optChain lastMessage "role") "assistant" then
    return jsOr (optChain lastMessage "content") (some (.str "No content in assistant response"))
  let toolResults ← filterToolRole messages
  if toolResults.length > 0 then
    processToolResults toolResults
  else
    return some (.str ("Received " ++ toString messages.length ++ " messages. Last message: " ++
      jsStrV (jsOr (optChain lastMessage "content") (some (.str "No content")))))

/-- The candidate keys scanned by `extractMeaningfulContent`. -/
def contentFields : List String := ["content", "text", "message", "response", "result", "data"]

/-- The `for (const field of contentFields)` scan: the first member that is a
truthy string (`obj[field] && typeof obj[field] === 'string'`). -/
def extractScan (obj : Json) : List String → Except Unit (Option Json)
  | [] => .ok none
  | f :: rest => do
      let v ← jsAccess (some obj) f
      match v with
      | some (.str s) => if s ≠ "" then return some (.str s) else extractScan obj rest
      | _ => extractScan obj rest

/-- `extractMeaningfulContent(obj)`: first truthy string-typed candidate
member, else the two-space-indented `JSON.stringify(obj, null, 2)`. -/
def extractMeaningfulContent (obj : Json) : Except Unit JsVal := do
  match (← extractScan obj contentFields) with
  | some v => return some v
  | none => return some (.str obj.stringifyP)

/-- The body of `processAIResponse` after a successful `JSON.parse`. -/
def processParsedResponse (jsonResponse : Json) : Except Unit JsVal := do
  match jsonResponse with
  | .arr messages => processConversationArray messages
  | _ =>
    -- `if (jsonResponse.role && jsonResponse.content) return jsonResponse.content`
    let role ← jsAccess (some jsonResponse) "role"
    let roleContent : JsVal ←
      if jsTruthy role then do
        let content ← jsAccess (some jsonResponse) "content"
        pure (if jsTruthy content then content else none)
      else pure none
    if jsTruthy roleContent then return roleContent
    let response ← jsAccess (some jsonResponse) "response"
    if jsTruthy response then return response
    let message ← jsAccess (some jsonResponse) "message"
    if jsTruthy message then return message
    -- `if (jsonResponse.tool_calls || jsonResponse.function_call)` (short-circuit)
    let toolCalls ← jsAccess (some jsonResponse) "tool_calls"
    if jsTruthy toolCalls then
      processToolCallResponse jsonResponse
    else
      let functionCall ← jsAccess (some jsonResponse) "function_call"
      if jsTruthy functionCall then processToolCallResponse jsonResponse
      else extractMeaningfulContent jsonResponse

/-- `processAIResponse(response)`: parse as JSON and dispatch; the catch block
returns the raw text both on a parse failure and on any access error thrown
while inspecting the parsed value. -/
def processAIResponse (response : String) : JsVal :=
  match jsonParse response with
  | none => some (.str response)
  | some j =>
      match processParsedResponse j with
      | .ok v => v
      | .error _ => some (.str response)

/-- `msg.role && ['user','assistant','tool'].includes(msg.role)`. -/
def relevantRole (role : JsVal) : Bool :=
  jsTruthy role && (jsEqStr role "user" || jsEqStr role "assistant" || jsEqStr role "tool")

/-- The `parsedResponse.filter(...)` of `parseConversationResponse`: property
access in the callback throws on a `null` entry. -/
def filterRelevant : List Json → Except Unit (List Json)
  | [] => .ok []
  | msg :: rest => do
      let role ← jsAccess (some msg) "role"
      let tail ← filterRelevant rest
      return (if relevantRole role then msg :: tail else tail)

/-- `msg.content || ''` as pushed into the history. -/
def contentOrEmpty (msg : Json) : Json :=
  match msg.getProp "content" with
  | some c => if c.truthy then c else .str ""
  | none => .str ""

/-- The `relevantMessages.forEach` push loop: every surviving message becomes
one history item preserving its role string. -/
def historyItemsOf (relevantMessages : List Json) : List MessageHistoryItem :=
  relevantMessages.map fun msg =>
    ⟨jsStrV (msg.getProp "role"), contentOrEmpty msg⟩

/-- `relevantMessages.filter(msg => msg.role === 'assistant').pop()`. -/
def lastAssistantMessage (relevantMessages : List Json) : JsVal :=
  (relevantMessages.filter fun msg => jsEqStr (msg.getProp "role") "assistant").getLast?

/-- The try block of `parseConversationResponse` after a successful parse. -/
def parseConversationResponseBody (response : String) (parsedResponse : Json) :
    Except Unit (JsVal × List MessageHistoryItem) := do
  match parsedResponse with
  | .arr msgs =>
      let relevantMessages ← filterRelevant msgs
      let conversationItems := historyItemsOf relevantMessages
      let lastA := lastAssistantMessage relevantMessages
      let displayMessage :=
        match lastA with
        | some m => jsOr (m.getProp "content") (some (.str "Response received"))
        | none => some (.str "Conversation processed successfully")
      return (displayMessage, conversationItems)
  | _ =>
      -- single (non-array) values: the raw text both as display and history
      return (some (.str response), [⟨"assistant", .str response⟩])

/-- `parseConversationResponse(response)`: display string and history items;
the catch block falls back to the raw text as a single assistant item. -/
def parseConversationResponse (response : String) : JsVal × List MessageHistoryItem :=
  match jsonParse response with
  | none => (some (.str response), [⟨"assistant", .str response⟩])
  | some j =>
      match parseConversationResponseBody response j with
      | .ok r => r
      | .error _ => (some (.str response), [⟨"assistant", .str response⟩])

/-! ## Conversation-reference store, clear, message handler, notifier -/

/-- The relevant fields of a Bot Framework `ChannelAccount`. -/
structure ChannelAccount where
  id : String
  aadObjectId : Option String

/-- The relevant field of a `ConversationAccount`. -/
structure ConversationAccount where
  id : String

/-- An inbound activity (the fields the embedded code reads). `sender` embeds
the activity's `from` member (`from` is a Lean keyword). -/
structure Activity where
  sender : ChannelAccount
  conversation : ConversationAccount

/-- `TurnContext.getConversationReference(activity)`: the stored handle keeps
the activity's user and conversation. -/
structure ConversationRef where
  user : ChannelAccount
  conversation : ConversationAccount

/-- Build the reference handle from an inbound activity. -/
def getConversationReference (activity : Activity) : ConversationRef :=
  ⟨activity.sender, activity.conversation⟩

/-- The `conversationReferences` member: a string-keyed object, modelled as an
insertion-ordered association list (`Object.keys` order). -/
abbrev RefStore := List (String × ConversationRef)

/-- Assignment `refs[k] = r`: overwrite the key in place (a JS object holds
each key once), or append a new key (`Object.keys` insertion order). -/
def storeInsert : RefStore → String → ConversationRef → RefStore
  | [], k, r => [(k, r)]
  | (k', v) :: rest, k, r =>
      if k' = k then (k, r) :: rest else (k', v) :: storeInsert rest k r

/-- Read `refs[k]`. -/
def storeGet : RefStore → String → Option ConversationRef
  | [], _ => none
  | (k', v) :: rest, k => if k' = k then some v else storeGet rest k

/-- `Object.keys(refs)`. -/
def storeKeys (store : RefStore) : List String := store.map Prod.fst

/-- `addConversationReference(activity)`: store the handle under the platform
user id when truthy, and additionally under the AAD object id when truthy
(an absent id is folded into the empty string's falsiness). -/
def addConversationReference (store : RefStore) (activity : Activity) : RefStore :=
  let conversationReference := getConversationReference activity
  let store1 :=
    if conversationReference.user.id ≠ "" then
      storeInsert store conversationReference.user.id conversationReference
    else store
  match activity.sender.aadObjectId with
  | some aad => if aad ≠ "" then storeInsert store1 aad conversationReference else store1
  | none => store1

/-- What the handler sends back on one turn. -/
inductive Sent where
  | typing
  | message (v : JsVal)
  | dialogRun

/-- The `messageHistoryAccessor` member is declared but its initializer in the
constructor is commented out, so the member is `undefined` at runtime. -/
def messageHistoryAccessorInitialized : Bool := false

/-- Result of the `clearConversationHistory` call: the promise's fate, the
mutated reference store, and the activities it sent. -/
structure ClearCallResult where
  promise : Except Unit Bool
  store : RefStore
  sent : List Sent

/-- Default `CLEAR_HISTORY_URL`. -/
def clearHistoryUrl : String := "http://localhost:8989/clear_history"

/-- `clearConversationHistory(context, session_id)`: wipes the reference map,
then touches the uninitialized `messageHistoryAccessor` — which throws a
`TypeError` before the try block, rejecting the promise; the progress sends
and the POST to the clear-history endpoint are unreachable. -/
def clearConversationHistory (store : RefStore) (session_id : Option String)
    (o : FetchOutcome) : ClearCallResult :=
  -- `this.conversationReferences = {}` runs synchronously first
  let store : RefStore := []
  if messageHistoryAccessorInitialized then
    let body := Json.stringifyC (.obj (match session_id with
      | some sid => [("session_id", .str sid)]
      | none => []))  -- `JSON.stringify` drops an `undefined` member
    let progress : List Sent :=
      [.message (some (.str "Clearing conversation history...")),
       .message (some (.str clearHistoryUrl)),
       .message (some (.str body))]
    match o with
    | .ok _ => ⟨.ok true, store, progress⟩
    | .badBody _ => ⟨.ok true, store, progress⟩  -- the body is never read here
    | .httpError _ => ⟨.ok false, store, progress⟩
    | .networkError m => ⟨.ok false, store, progress ++ [.message (some (.str m))]⟩
  else
    ⟨.error (), store, []⟩

/-- A turn's observable outcome: sent activities and the resulting store. -/
structure TurnResult where
  sent : List Sent
  store : RefStore

/-- Truthiness of the un-awaited `clearConversationHistory(...)` call site: a
Promise is an object and objects are always truthy. -/
def promiseTruthy {α : Type} (x : α) : Bool := true

/-- Confirmation text of the reset branch. -/
def confirmClearText : String :=
  "New conversation started.  Prior history has been cleared."

/-- Text sent when an SSO command arrives but the dialog failed to set up. -/
def ssoUnavailableText : String :=
  "SSO functionality is not available. Please check the bot configuration."

/-- `context.activity.from.aadObjectId || context.activity.from.id`. -/
def sessionIdOf (activity : Activity) : String :=
  match activity.sender.aadObjectId with
  | some aad => if aad ≠ "" then aad else activity.sender.id
  | none => activity.sender.id

/-- The message handler after the reset-command check: SSO dispatch, or the
default free-form-chat path (typing indicator, agent call, reply). -/
def afterClear (activity : Activity) (txt : String) (ssoCommand dialogAvailable : Bool)
    (agentUrl : String) (store : RefStore) (agentOutcome : FetchOutcome) : TurnResult :=
  if ssoCommand then
    if dialogAvailable then ⟨[.dialogRun], store⟩
    else ⟨[.message (some (.str ssoUnavailableText))], store⟩
  else
    let aiUserId := sessionIdOf activity
    let aiResponse := getAIResponse agentUrl activity.conversation.id aiUserId txt agentOutcome
    ⟨[.typing, .message aiResponse], store⟩

/-- The `onMessage` turn handler (normalized text `txt` given; `ssoCommand`
models `SSOCommandMap.get(txt)` being truthy, an external collaborator).
The reset branch calls `clearConversationHistory` WITHOUT `await`, so its
`if` tests the Promise object itself. -/
def onMessage (activity : Activity) (txt : String) (ssoCommand dialogAvailable : Bool)
    (agentUrl : String) (store : RefStore) (agentOutcome clearOutcome : FetchOutcome) :
    TurnResult :=
  let store := addConversationReference store activity
  if txt = "/cls" ∨ txt = "/new" then
    let clearCall := clearConversationHistory store activity.sender.aadObjectId clearOutcome
    if promiseTruthy clearCall.promise then
      ⟨clearCall.sent ++ [.message (some (.str confirmClearText))], clearCall.store⟩
    else
      afterClear activity txt ssoCommand dialogAvailable agentUrl clearCall.store agentOutcome
  else
    afterClear activity txt ssoCommand dialogAvailable agentUrl store agentOutcome

/-- A `POST /api/notify` body (`user_id`, optional `message`). -/
structure NotifyReq where
  user_id : String
  message : Option Json

/-- Outcome the platform continuation (`continueConversationAsync`) takes. -/
inductive ContinuationOutcome where
  | success
  | failure (errMsg : String)

/-- The endpoint's observable result: HTTP status, body, delivered proactive
messages, and how many continuation attempts were made. -/
structure NotifyResult where
  status : Nat
  body : String
  delivered : List (ConversationRef × JsVal)
  attempts : Nat

/-- Default text when the body has no truthy `message`. -/
def defaultNotifyText : String := "This is a proactive message!"

/-- The `POST /api/notify` handler: look the user key up in the reference
store; present → reopen the conversation and send (200, or 500 when the
continuation throws); absent → 404 listing known keys. Exactly one
continuation attempt is ever made. -/
def notifyHandler (store : RefStore) (req : NotifyReq) (cont : ContinuationOutcome) :
    NotifyResult :=
  let message := jsOr req.message (some (.str defaultNotifyText))
  match storeGet store req.user_id with
  | some reference =>
      match cont with
      | .success => ⟨200, "Message sent", [(reference, message)], 1⟩
      | .failure _ => ⟨500, "Error sending message", [], 1⟩
  | none =>
      ⟨404, "User not found. Available users: " ++ String.intercalate ", " (storeKeys store),
        [], 0⟩

/-! ## Spec-side definitions

These follow the specification's wording, to be compared against the
source-derived functions above. -/

/-- Whether an `Except`-modelled computation completed without a JS throw. -/
def noThrow {α : Type} : Except Unit α → Bool
  | .ok _ => true
  | .error _ => false

/-- Spec wording (§4.1, object case 5): the scan over the fixed candidate-key
list, returning the first member holding a truthy string. -/
def firstContentFieldAux (members : List (String × Json)) : List String → Option String
  | [] => none
  | k :: rest =>
      match objLookup members k with
      | some (.str s) => if s ≠ "" then some s else firstContentFieldAux members rest
      | _ => firstContentFieldAux members rest

/-- Spec wording: the first string-valued (truthy) field among
`content`, `text`, `message`, `response`, `result`, `data`. -/
def firstContentField (members : List (String × Json)) : Option String :=
  firstContentFieldAux members contentFields

/-- Spec wording (§8): "the last entry whose role is `assistant`" of a parsed
array, read directly off the array. -/
def lastAssistantEntry (xs : List Json) : Option Json :=
  (xs.filter fun x => jsEqStr (x.getProp "role") "assistant").getLast?

/-- A concrete inbound activity used by the witnesses. -/
def sampleActivity : Activity :=
  ⟨⟨"user-1", some "aad-1"⟩, ⟨"conv-1"⟩⟩

/-- A concrete stored conversation reference used by the witnesses. -/
def sampleRef : ConversationRef :=
  ⟨⟨"user-1", some "aad-1"⟩, ⟨"conv-1"⟩⟩

/-- The default agent endpoint (`AGENT_URL` fallback). -/
def defaultAgentUrl : String := "http://localhost:8989/agent_chat"

/-! ## Helper lemmas -/

theorem storeGet_storeInsert_self (s : RefStore) (k : String) (r : ConversationRef) :
    storeGet (storeInsert s k r) k = some r := by
  induction s with
  | nil => simp [storeInsert, storeGet]
  | cons p rest ih =>
      obtain ⟨k', v⟩ := p
      by_cases h : k' = k
      · simp [storeInsert, h, storeGet]
      · simp [storeInsert, h, storeGet, ih]

theorem storeGet_storeInsert_ne (s : RefStore) (k k' : String) (r : ConversationRef)
    (h : k ≠ k') : storeGet (storeInsert s k r) k' = storeGet s k' := by
  induction s with
  | nil => simp [storeInsert, storeGet, h]
  | cons p rest ih =>
      obtain ⟨k₀, v⟩ := p
      by_cases h₀ : k₀ = k
      · subst h₀
        simp [storeInsert, storeGet, h]
      · simp [storeInsert, h₀, storeGet, ih]

theorem exceptBindOk {α β : Type} (a : α) (f : α → Except Unit β) :
    (Except.ok a : Except Unit α) >>= f = f a := rfl

theorem jsAccess_of_ne_null (j : Json) (hk : j ≠ .null) (k : String) :
    jsAccess (some j) k = .ok (j.getProp k) := by
  cases j
  case null => exact absurd rfl hk
  all_goals rfl

theorem optChain_of_ne_null (j : Json) (hk : j ≠ .null) (k : String) :
    optChain (some j) k = j.getProp k := by
  cases j
  case null => exact absurd rfl hk
  all_goals rfl

theorem ne_null_of_getProp {j : Json} {k : String} {v : Json}
    (h : j.getProp k = some v) : j ≠ .null := by
  intro he
  subst he
  simp [Json.getProp] at h

theorem filterRelevant_ok (xs : List Json) (h : ∀ x ∈ xs, x ≠ Json.null) :
    filterRelevant xs = .ok (xs.filter fun m => relevantRole (m.getProp "role")) := by
  induction xs with
  | nil => rfl
  | cons m rest ih =>
      have hm : m ≠ Json.null := h m (List.mem_cons_self m rest)
      have hrest := ih fun x hx => h x (List.mem_cons_of_mem m hx)
      simp only [filterRelevant, jsAccess_of_ne_null m hm, hrest, exceptBindOk,
        List.filter_cons]
      by_cases hr : relevantRole (m.getProp "role") <;> simp [hr, pure, Except.pure]

theorem relevant_of_assistant (r : JsVal) (h : jsEqStr r "assistant" = true) :
    relevantRole r = true := by
  rcases r with _ | j
  · simp [jsEqStr] at h
  · cases j <;> simp [jsEqStr] at h
    subst h
    decide

theorem extractScan_obj (o : List (String × Json)) (fields : List String) :
    extractScan (Json.obj o) fields = .ok ((firstContentFieldAux o fields).map Json.str) := by
  induction fields with
  | nil => rfl
  | cons f rest ih =>
      have hacc : jsAccess (some (Json.obj o)) f = .ok (objLookup o f) := rfl
      simp only [extractScan, firstContentFieldAux, hacc, exceptBindOk]
      rcases h : objLookup o f with _ | v
      · exact ih
      · cases v with
        | str s =>
            by_cases hs : s = ""
            · simp [hs, ih]
            · simp [hs, pure, Except.pure]
        | null => exact ih
        | bool b => exact ih
        | num n => exact ih
        | arr elems => exact ih
        | obj ms => exact ih

theorem strAppendAssoc (a b c : String) : a ++ b ++ c = a ++ (b ++ c) := by
  rcases a with ⟨la⟩
  rcases b with ⟨lb⟩
  rcases c with ⟨lc⟩
  show String.mk (la ++ lb ++ lc) = String.mk (la ++ (lb ++ lc))
  rw [List.append_assoc]

/-! ## Claims -/

/-- C3: `getAIResponse` never throws to its caller; on a non-2xx status, a
rejected fetch, or a body-parse failure it returns the apology string with the
failure detail appended (totality of the embedding reflects that every failure
lands in the catch block). -/
theorem getAIResponse_failure_returns_apology (url chat_id session_id message : String)
    (o : FetchOutcome) (h : o.isFailure = true) :
    getAIResponse url chat_id session_id message o =
      some (.str (apologyPrefix ++ failureDetail url o)) := by
  cases o with
  | ok d => simp [FetchOutcome.isFailure] at h
  | badBody m => rfl
  | httpError st => rfl
  | networkError m => rfl

/-- Witness for C3 at a concrete 503 agent failure. -/
theorem getAIResponse_failure_returns_apology_witness :
    getAIResponse defaultAgentUrl "conv-1" "aad-1" "hi" (.httpError 503) =
      some (.str (apologyPrefix ++ failureDetail defaultAgentUrl (.httpError 503))) :=
  getAIResponse_failure_returns_apology defaultAgentUrl "conv-1" "aad-1" "hi"
    (.httpError 503) rfl

/-- C6: a reply that is not parseable as JSON passes through unchanged — the
display output is the raw input and the history is one assistant item holding
the same raw string. -/
theorem nonjson_reply_passthrough (s : String) (h : jsonParse s = none) :
    processAIResponse s = some (.str s) ∧
    parseConversationResponse s = (some (.str s), [⟨"assistant", .str s⟩]) := by
  refine ⟨?_, ?_⟩ <;> simp [processAIResponse, parseConversationResponse, h]

/-- Witness for C6 on a plain-text reply. -/
theorem nonjson_reply_passthrough_witness :
    processAIResponse "hello world" = some (.str "hello world") ∧
    parseConversationResponse "hello world" =
      (some (.str "hello world"), [⟨"assistant", .str "hello world"⟩]) :=
  nonjson_reply_passthrough "hello world" rfl

/-- C10: a notify request whose body has no truthy `message` member still
succeeds (given the stored reference and a working continuation) and delivers
the default proactive text. -/
theorem notify_default_message (store : RefStore) (u : String) (r : ConversationRef)
    (m : Option Json) (h : storeGet store u = some r) (hm : jsTruthy m = false) :
    notifyHandler store ⟨u, m⟩ .success =
      ⟨200, "Message sent", [(r, some (.str defaultNotifyText))], 1⟩ := by
  simp [notifyHandler, jsOr, hm, h]

/-- Witness for C10 with an absent `message` member. -/
theorem notify_default_message_witness :
    notifyHandler [("U", sampleRef)] ⟨"U", none⟩ .success =
      ⟨200, "Message sent", [(sampleRef, some (.str defaultNotifyText))], 1⟩ :=
  notify_default_message [("U", sampleRef)] "U" sampleRef none rfl rfl

/-- C4: the notify endpoint's contract — stored reference and working
continuation give 200 with exactly the one delivery; an unknown key gives 404
with the known keys listed; a throwing continuation gives 500; and never more
than one continuation attempt (no retry). -/
theorem notify_endpoint_contract (store : RefStore) (req : NotifyReq)
    (cont : ContinuationOutcome) :
    (∀ r, storeGet store req.user_id = some r → cont = .success →
        notifyHandler store req cont =
          ⟨200, "Message sent", [(r, jsOr req.message (some (.str defaultNotifyText)))], 1⟩) ∧
    (storeGet store req.user_id = none →
        (notifyHandler store req cont).status = 404 ∧
        (notifyHandler store req cont).body =
          "User not found. Available users: " ++ String.intercalate ", " (storeKeys store) ∧
        (notifyHandler store req cont).delivered = [] ∧
        (notifyHandler store req cont).attempts = 0) ∧
    (∀ r e, storeGet store req.user_id = some r → cont = .failure e →
        (notifyHandler store req cont).status = 500 ∧
        (notifyHandler store req cont).delivered = []) ∧
    (notifyHandler store req cont).attempts ≤ 1 := by
  refine ⟨?_, ?_, ?_, ?_⟩
  · intro r h hc
    subst hc
    simp [notifyHandler, h]
  · intro h
    simp [notifyHandler, h]
  · intro r e h hc
    subst hc
    simp [notifyHandler, h]
  · rcases h : storeGet store req.user_id with _ | r <;>
      cases cont <;> simp [notifyHandler, h]

/-- Witness for C4: a stored key succeeds with one delivery. -/
theorem notify_endpoint_contract_witness :
    notifyHandler [("U", sampleRef)] ⟨"U", some (.str "hi")⟩ .success =
      ⟨200, "Message sent",
        [(sampleRef, jsOr (some (.str "hi")) (some (.str defaultNotifyText)))], 1⟩ :=
  (notify_endpoint_contract [("U", sampleRef)] ⟨"U", some (.str "hi")⟩ .success).1
    sampleRef rfl rfl

/-- C5: recording an activity stores a reference with the activity's
conversation id under the (truthy) user id, dual-keys it under a present
(truthy) AAD object id, and the wholesale clear empties every key. -/
theorem reference_store_contract (store : RefStore) (activity : Activity) (U A : String) :
    (activity.sender.id = U → U ≠ "" →
        storeGet (addConversationReference store activity) U =
          some (getConversationReference activity) ∧
        (getConversationReference activity).conversation.id = activity.conversation.id) ∧
    (activity.sender.id = U → U ≠ "" → activity.sender.aadObjectId = some A → A ≠ "" →
        storeGet (addConversationReference store activity) A =
          some (getConversationReference activity)) ∧
    (∀ (sid : Option String) (o : FetchOutcome) (k : String),
        storeGet (clearConversationHistory store sid o).store k = none) := by
  refine ⟨?_, ?_, ?_⟩
  · intro hU hne
    refine ⟨?_, rfl⟩
    unfold addConversationReference
    simp only [getConversationReference, hU]
    rcases ha : activity.sender.aadObjectId with _ | a
    · simp [hne, storeGet_storeInsert_self]
    · by_cases hae : a = ""
      · simp [hne, hae, storeGet_storeInsert_self]
      · by_cases haU : a = U
        · subst haU
          simp [hne, hae, storeGet_storeInsert_self]
        · simp [hne, hae, storeGet_storeInsert_ne _ _ _ _ haU,
            storeGet_storeInsert_self]
  · intro hU hne hA hAne
    unfold addConversationReference
    simp only [getConversationReference, hU, hA]
    simp [hne, hAne, storeGet_storeInsert_self]
  · intro sid o k
    simp [clearConversationHistory, messageHistoryAccessorInitialized, storeGet]

/-- Witness for C5 on a concrete activity with both identities. -/
theorem reference_store_contract_witness :
    storeGet (addConversationReference [] sampleActivity) "user-1" =
      some (getConversationReference sampleActivity) ∧
    storeGet (addConversationReference [] sampleActivity) "aad-1" =
      some (getConversationReference sampleActivity) :=
  ⟨((reference_store_contract [] sampleActivity "user-1" "aad-1").1 rfl (by decide)).1,
    (reference_store_contract [] sampleActivity "user-1" "aad-1").2.1 rfl (by decide)
      rfl (by decide)⟩

/-- C2 (code bug): on `/cls` or `/new` the turn always sends the success
confirmation and terminates, whatever the clear-history outcome — the
un-awaited `clearConversationHistory` promise is truthy as an object — and the
clear itself always rejects (uninitialized `messageHistoryAccessor`) before it
can report error text or contact the endpoint. -/
theorem reset_branch_ignores_clear_failure (activity : Activity)
    (ssoCommand dialogAvailable : Bool) (agentUrl : String) (store : RefStore)
    (agentOutcome clearOutcome : FetchOutcome) :
    ((onMessage activity "/cls" ssoCommand dialogAvailable agentUrl store
        agentOutcome clearOutcome).sent = [.message (some (.str confirmClearText))] ∧
      (onMessage activity "/cls" ssoCommand dialogAvailable agentUrl store
        agentOutcome clearOutcome).store = [] ∧
      (clearConversationHistory store activity.sender.aadObjectId clearOutcome).promise =
        .error () ∧
      (clearConversationHistory store activity.sender.aadObjectId clearOutcome).sent = []) ∧
    ((onMessage activity "/new" ssoCommand dialogAvailable agentUrl store
        agentOutcome clearOutcome).sent = [.message (some (.str confirmClearText))] ∧
      (onMessage activity "/new" ssoCommand dialogAvailable agentUrl store
        agentOutcome clearOutcome).store = []) := by
  refine ⟨⟨?_, ?_, ?_, ?_⟩, ?_, ?_⟩ <;>
    simp [onMessage, promiseTruthy, clearConversationHistory,
      messageHistoryAccessorInitialized]

/-- C1 counterexample: for the agent body `{"foo":null}` the default path
sends the agent client's compact extraction verbatim, while the Response
Normalizer's display of that same reply is the two-space pretty dump — the
sent reply is NOT the normalized display string. -/
theorem default_path_not_normalized_counterexample :
    jsonParse "\x7b\"foo\":null\x7d" = some (.obj [("foo", .null)]) ∧
    (onMessage sampleActivity "hi" false true defaultAgentUrl []
        (.ok (.obj [("foo", .null)])) (.ok .null)).sent =
      [.typing, .message (some (.str "\x7b\"foo\":null\x7d"))] ∧
    processAIResponse "\x7b\"foo\":null\x7d" = some (.str "\x7b\n  \"foo\": null\n\x7d") ∧
    ("\x7b\"foo\":null\x7d" : String) ≠ "\x7b\n  \"foo\": null\n\x7d" := by
  refine ⟨rfl, rfl, rfl, by decide⟩

/-- C1 (amended): on the default path the reply sent is exactly the agent
client's (`getAIResponse`) own extraction of the HTTP body — `response` member,
else `message` member, else the raw string, else compact `JSON.stringify` —
with the Response Normalizer never applied. -/
theorem default_path_sends_agent_client_output (activity : Activity)
    (txt agentUrl : String) (dialogAvailable : Bool) (store : RefStore)
    (agentOutcome clearOutcome : FetchOutcome)
    (h1 : txt ≠ "/cls") (h2 : txt ≠ "/new") :
    (onMessage activity txt false dialogAvailable agentUrl store
        agentOutcome clearOutcome).sent =
      [.typing, .message (getAIResponse agentUrl activity.conversation.id
        (sessionIdOf activity) txt agentOutcome)] := by
  simp [onMessage, h1, h2, afterClear]

/-- Witness for the amended C1 on a concrete free-form turn. -/
theorem default_path_sends_agent_client_output_witness :
    (onMessage sampleActivity "hi" false true defaultAgentUrl []
        (.ok (.str "plain answer")) (.ok .null)).sent =
      [.typing, .message (getAIResponse defaultAgentUrl sampleActivity.conversation.id
        (sessionIdOf sampleActivity) "hi" (.ok (.str "plain answer")))] :=
  default_path_sends_agent_client_output sampleActivity "hi" defaultAgentUrl true []
    (.ok (.str "plain answer")) (.ok .null) (by decide) (by decide)

/-- C8: an array reply whose entries all carry role `user` or `tool` (so no
assistant entry) yields the fixed non-empty fallback display, and no exception
escapes the normalizer on such input. -/
theorem array_without_assistant_fallback (s : String) (xs : List Json)
    (hp : jsonParse s = some (.arr xs))
    (hr : ∀ x ∈ xs, x.getProp "role" = some (.str "user") ∨
        x.getProp "role" = some (.str "tool")) :
    noThrow (parseConversationResponseBody s (.arr xs)) = true ∧
    (parseConversationResponse s).1 = some (.str "Conversation processed successfully") ∧
    ("Conversation processed successfully" : String) ≠ "" := by
  have hnn : ∀ x ∈ xs, x ≠ Json.null := fun x hx => by
    rcases hr x hx with h | h <;> exact ne_null_of_getProp h
  have hfr := filterRelevant_ok xs hnn
  have hlast :
      lastAssistantMessage (xs.filter fun m => relevantRole (m.getProp "role")) = none := by
    unfold lastAssistantMessage
    rw [List.getLast?_eq_none_iff, List.filter_filter, List.filter_eq_nil_iff]
    intro a ha
    rcases hr a ha with h | h <;> simp [h, jsEqStr]
  have hbody : parseConversationResponseBody s (.arr xs) =
      .ok (some (.str "Conversation processed successfully"),
        historyItemsOf (xs.filter fun m => relevantRole (m.getProp "role"))) := by
    simp [parseConversationResponseBody, hfr, exceptBindOk, hlast, pure, Except.pure]
  refine ⟨by rw [hbody]; rfl, ?_, by decide⟩
  simp [parseConversationResponse, hp, hbody]

/-- Witness for C8 on a user/tool-only conversation array. -/
theorem array_without_assistant_fallback_witness :
    (parseConversationResponse
        "[\x7b\"role\":\"user\",\"content\":\"q\"\x7d,\x7b\"role\":\"tool\",\"content\":\"t\"\x7d]").1 =
      some (.str "Conversation processed successfully") :=
  (array_without_assistant_fallback
    "[\x7b\"role\":\"user\",\"content\":\"q\"\x7d,\x7b\"role\":\"tool\",\"content\":\"t\"\x7d]"
    [.obj [("role", .str "user"), ("content", .str "q")],
     .obj [("role", .str "tool"), ("content", .str "t")]] rfl
    (by
      intro x hx
      simp only [List.mem_cons, List.mem_singleton, List.not_mem_nil, or_false] at hx
      rcases hx with h | h <;> subst h
      · left; rfl
      · right; rfl)).2.1

/-- C7 counterexample: for the array whose last (and only) assistant entry has
content `""`, the display is the fallback `"Response received"`, not the
entry's content — so the display does not equal the content of the last
assistant entry. -/
theorem assistant_display_counterexample :
    jsonParse "[\x7b\"role\":\"assistant\",\"content\":\"\"\x7d]" =
      some (.arr [.obj [("role", .str "assistant"), ("content", .str "")]]) ∧
    (parseConversationResponse "[\x7b\"role\":\"assistant\",\"content\":\"\"\x7d]").1 =
      some (.str "Response received") ∧
    ("Response received" : String) ≠ "" :=
  ⟨rfl, rfl, by decide⟩

/-- C7 (amended): for an array reply with no null entries whose last
assistant-role entry is `m`, the display equals `m`'s content whenever that
content is truthy (e.g. a non-empty string); when it is absent or falsy the
display is the fixed fallback `"Response received"` instead. -/
theorem assistant_display_amended (s : String) (xs : List Json) (m : Json)
    (hp : jsonParse s = some (.arr xs)) (hnn : ∀ x ∈ xs, x ≠ Json.null)
    (hm : lastAssistantEntry xs = some m) :
    (jsTruthy (m.getProp "content") = true →
        (parseConversationResponse s).1 = m.getProp "content") ∧
    (jsTruthy (m.getProp "content") = false →
        (parseConversationResponse s).1 = some (.str "Response received")) := by
  have hfr := filterRelevant_ok xs hnn
  have hlast :
      lastAssistantMessage (xs.filter fun x => relevantRole (x.getProp "role")) = some m := by
    unfold lastAssistantMessage
    rw [List.filter_filter]
    have hcongr :
        (xs.filter fun a =>
            jsEqStr (a.getProp "role") "assistant" && relevantRole (a.getProp "role")) =
          xs.filter fun a => jsEqStr (a.getProp "role") "assistant" := by
      apply List.filter_congr
      intro a _
      cases hq : jsEqStr (a.getProp "role") "assistant"
      · simp
      · simp [relevant_of_assistant _ hq]
    rw [hcongr]
    unfold lastAssistantEntry at hm
    exact hm
  have hbody : parseConversationResponseBody s (.arr xs) =
      .ok (jsOr (m.getProp "content") (some (.str "Response received")),
        historyItemsOf (xs.filter fun x => relevantRole (x.getProp "role"))) := by
    simp [parseConversationResponseBody, hfr, exceptBindOk, hlast, pure, Except.pure]
  constructor
  · intro ht
    simp [parseConversationResponse, hp, hbody, jsOr, ht]
  · intro hf
    simp [parseConversationResponse, hp, hbody, jsOr, hf]

/-- Witness for the amended C7 on a concrete assistant reply. -/
theorem assistant_display_amended_witness :
    (parseConversationResponse "[\x7b\"role\":\"assistant\",\"content\":\"hi\"\x7d]").1 =
      (Json.obj [("role", .str "assistant"), ("content", .str "hi")]).getProp "content" :=
  (assistant_display_amended "[\x7b\"role\":\"assistant\",\"content\":\"hi\"\x7d]"
    [.obj [("role", .str "assistant"), ("content", .str "hi")]]
    (.obj [("role", .str "assistant"), ("content", .str "hi")]) rfl
    (by
      intro x hx
      simp only [List.mem_singleton] at hx
      subst hx
      simp)
    rfl).1 rfl

/-- C9: for a reply parsing to a single JSON object, the display resolves by
the fixed priority — (1) truthy role+content pair yields the content, (2) the
`response` member, (3) the `message` member, (4) a tool-call shape renders as
an executed-tool string containing the tool's name (both the `tool_calls`
and the `function_call`-only shape), (5) the first truthy
string-valued member among the fixed candidate keys, (6) the pretty JSON dump —
and `{"response":"hello"}` displays exactly `hello`. -/
theorem object_display_priority :
    (∀ (s : String) (o : List (String × Json)), jsonParse s = some (.obj o) →
      ((jsTruthy (objLookup o "role") = true → jsTruthy (objLookup o "content") = true →
          processAIResponse s = objLookup o "content") ∧
        ((jsTruthy (objLookup o "role") && jsTruthy (objLookup o "content")) = false →
          jsTruthy (objLookup o "response") = true →
          processAIResponse s = objLookup o "response") ∧
        ((jsTruthy (objLookup o "role") && jsTruthy (objLookup o "content")) = false →
          jsTruthy (objLookup o "response") = false →
          jsTruthy (objLookup o "message") = true →
          processAIResponse s = objLookup o "message") ∧
        (∀ (tc : Json) (rest : List Json) (fn : Json) (nm : String),
          (jsTruthy (objLookup o "role") && jsTruthy (objLookup o "content")) = false →
          jsTruthy (objLookup o "response") = false →
          jsTruthy (objLookup o "message") = false →
          objLookup o "tool_calls" = some (.arr (tc :: rest)) →
          tc.getProp "function" = some fn →
          fn.getProp "name" = some (.str nm) → nm ≠ "" →
          ∃ pre post, processAIResponse s = some (.str (pre ++ (nm ++ post)))) ∧
        (∀ (fc : Json) (nm : String),
          (jsTruthy (objLookup o "role") && jsTruthy (objLookup o "content")) = false →
          jsTruthy (objLookup o "response") = false →
          jsTruthy (objLookup o "message") = false →
          jsTruthy (objLookup o "tool_calls") = false →
          objLookup o "function_call" = some fc →
          fc.getProp "name" = some (.str nm) → nm ≠ "" →
          ∃ pre post, processAIResponse s = some (.str (pre ++ (nm ++ post)))) ∧
        (∀ v : String,
          (jsTruthy (objLookup o "role") && jsTruthy (objLookup o "content")) = false →
          jsTruthy (objLookup o "response") = false →
          jsTruthy (objLookup o "message") = false →
          jsTruthy (objLookup o "tool_calls") = false →
          jsTruthy (objLookup o "function_call") = false →
          firstContentField o = some v →
          processAIResponse s = some (.str v)) ∧
        ((jsTruthy (objLookup o "role") && jsTruthy (objLookup o "content")) = false →
          jsTruthy (objLookup o "response") = false →
          jsTruthy (objLookup o "message") = false →
          jsTruthy (objLookup o "tool_calls") = false →
          jsTruthy (objLookup o "function_call") = false →
          firstContentField o = none →
          processAIResponse s = some (.str (Json.obj o).stringifyP)))) ∧
    processAIResponse "\x7b\"response\":\"hello\"\x7d" = some (.str "hello") := by
  refine ⟨?_, rfl⟩
  intro s o hp
  have hacc : ∀ k, jsAccess (some (Json.obj o)) k = .ok (objLookup o k) := fun k => rfl
  have hred : processAIResponse s =
      (match processParsedResponse (.obj o) with
        | .ok v => v
        | .error _ => some (.str s)) := by
    simp [processAIResponse, hp]
  have hfalsy : ∀ (hb : (jsTruthy (objLookup o "role") &&
        jsTruthy (objLookup o "content")) = false),
      (processParsedResponse (.obj o) : Except Unit JsVal) =
        (do
          let response ← jsAccess (some (Json.obj o)) "response"
          if jsTruthy response then return response
          let message ← jsAccess (some (Json.obj o)) "message"
          if jsTruthy message then return message
          let toolCalls ← jsAccess (some (Json.obj o)) "tool_calls"
          if jsTruthy toolCalls then
            processToolCallResponse (Json.obj o)
          else
            let functionCall ← jsAccess (some (Json.obj o)) "function_call"
            if jsTruthy functionCall then processToolCallResponse (Json.obj o)
            else extractMeaningfulContent (Json.obj o)) := by
    intro hb
    have hnone : jsTruthy none = false := rfl
    rcases hr : jsTruthy (objLookup o "role") with _ | _
    · simp [processParsedResponse, hacc, exceptBindOk, hr, hnone]
    · rw [hr, Bool.true_and] at hb
      simp [processParsedResponse, hacc, exceptBindOk, hr, hb, hnone]
  refine ⟨?_, ?_, ?_, ?_, ?_, ?_, ?_⟩
  · intro h1 h2
    rw [hred]
    simp [processParsedResponse, hacc, exceptBindOk, h1, h2, pure, Except.pure]
  · intro hb h3
    rw [hred, hfalsy hb]
    simp [hacc, exceptBindOk, h3, pure, Except.pure]
  · intro hb h3 h4
    rw [hred, hfalsy hb]
    simp [hacc, exceptBindOk, h3, h4, pure, Except.pure]
  · intro tc rest fn nm hb h3 h4 htc hfn hnm hne
    have htcne : tc ≠ Json.null := ne_null_of_getProp hfn
    have hfnne : fn ≠ Json.null := ne_null_of_getProp hnm
    have hidx : jsIndex0 (some (Json.arr (tc :: rest))) = .ok (some tc) := rfl
    have htr : jsTruthy (some (Json.arr (tc :: rest))) = true := rfl
    have hnmtr : jsTruthy (some (Json.str nm)) = true := by
      simp [jsTruthy, Json.truthy, hne]
    have hgp : ∀ k, (Json.obj o).getProp k = objLookup o k := fun k => rfl
    refine ⟨"Executed tool: ", " with result: " ++
      jsStringifyV (jsOr (optChain (some fn) "arguments") (some (.obj []))), ?_⟩
    rw [hred, hfalsy hb]
    simp [hacc, exceptBindOk, h3, h4, htc, htr, pure, Except.pure,
      processToolCallResponse, hgp, hidx, jsAccess_of_ne_null tc htcne, hfn,
      optChain_of_ne_null fn hfnne, hnm, jsOr, hnmtr, jsStrV, Json.jsStr,
      strAppendAssoc]
  · intro fc nm hb h3 h4 h5 hfc hnm hne
    have hfcne : fc ≠ Json.null := ne_null_of_getProp hnm
    have hfctr : jsTruthy (some fc) = true := by
      cases fc
      case obj => rfl
      all_goals simp [Json.getProp] at hnm
    have hgp : ∀ k, (Json.obj o).getProp k = objLookup o k := fun k => rfl
    refine ⟨"Function call: ", " with arguments: " ++
      jsStrV (optChain (some fc) "arguments"), ?_⟩
    rw [hred, hfalsy hb]
    simp [hacc, exceptBindOk, h3, h4, h5, hfc, hfctr, pure, Except.pure,
      processToolCallResponse, hgp, optChain_of_ne_null fc hfcne, hnm, jsStrV,
      Json.jsStr, strAppendAssoc]
  · intro v hb h3 h4 h5 h6 hv
    have hv2 : firstContentFieldAux o contentFields = some v := hv
    rw [hred, hfalsy hb]
    simp [hacc, exceptBindOk, h3, h4, h5, h6, pure, Except.pure,
      extractMeaningfulContent, extractScan_obj, hv2]
  · intro hb h3 h4 h5 h6 hv
    have hv2 : firstContentFieldAux o contentFields = none := hv
    rw [hred, hfalsy hb]
    simp [hacc, exceptBindOk, h3, h4, h5, h6, pure, Except.pure,
      extractMeaningfulContent, extractScan_obj, hv2]

/-- Witness for C9: the priority's `response` case at the concrete object. -/
theorem object_display_priority_witness :
    processAIResponse "\x7b\"response\":\"hello\"\x7d" =
      objLookup [("response", Json.str "hello")] "response" :=
  ((object_display_priority.1 "\x7b\"response\":\"hello\"\x7d"
    [("response", Json.str "hello")] rfl).2.1) rfl rfl

end BotSpec
